import Mathlib

/-!
Shallow embedding of the filtering, sorting, pagination and persisted-settings
logic of the `pyqt_enhanced_table` repository
(`enhanced_table.py`, `table_footer.py`, `filter_popup.py`).

Python strings are modelled as Lean `String`; the Python string operations
used by the code (`lower`, `in`, `startswith`, `endswith`) are defined on the
underlying character lists.  `Char.toLower` covers the ASCII range exercised
by the filter logic.
-/

/-- Python `str.lower`, character by character. -/
def pyLower (s : String) : String := ⟨s.data.map Char.toLower⟩

/-- Needle-first prefix test: `t` starts the list `s`. -/
def isPrefixCh : List Char → List Char → Bool
  | [], _ => true
  | _ :: _, [] => false
  | a :: as, b :: bs => a == b && isPrefixCh as bs

/-- Substring test: `needle` occurs as a contiguous run inside the second list. -/
def containsCh (needle : List Char) : List Char → Bool
  | [] => isPrefixCh needle []
  | b :: bs => isPrefixCh needle (b :: bs) || containsCh needle bs

/-- Suffix test: `t` ends the list `s`. -/
def isSuffixCh (t s : List Char) : Bool := isPrefixCh t.reverse s.reverse

/-- Python `needle in hay` on strings. -/
def pyIn (needle hay : String) : Bool := containsCh needle.data hay.data

/-- Python `s.startswith(t)`. -/
def pyStartsWith (s t : String) : Bool := isPrefixCh t.data s.data

/-- Python `s.endswith(t)`. -/
def pyEndsWith (s t : String) : Bool := isSuffixCh t.data s.data

/-- Lexicographic code-point comparison: the `QString` ordering used by the
base `QTableWidgetItem.__lt__` on display text. -/
def strLtCh : List Char → List Char → Bool
  | _, [] => false
  | [], _ :: _ => true
  | a :: as, b :: bs => if a < b then true else if b < a then false else strLtCh as bs

/-- Base-class text comparison of two display strings. -/
def qtTextLt (s t : String) : Bool := strLtCh s.data t.data

/-- Embedding of `EnhancedTableWidget._match_text_filter` (enhanced_table.py lines 382-397).
The second argument is the rule text as passed by `_apply_filters`, which has
already been lower-cased at the call site (line 341). -/
def match_text_filter (cell_text text mode : String) : Bool :=
  let cell_lower := pyLower cell_text
  if mode == "contains" then pyIn text cell_lower
  else if mode == "not_contains" then !(pyIn text cell_lower)
  else if mode == "equals" then cell_lower == text
  else if mode == "not_equals" then cell_lower != text
  else if mode == "starts_with" then pyStartsWith cell_lower text
  else if mode == "ends_with" then pyEndsWith cell_lower text
  else true

/-- The text-rule test as the spec words it: lower-case the cell text and the
rule text, then dispatch on the mode (substring, negated substring, equality,
negated equality, starts-with, ends-with); any unknown mode passes.  Declared
from the spec for the refinement claim C5. -/
def textRuleSpec (cell_text rule_text mode : String) : Bool :=
  let c := pyLower cell_text
  let t := pyLower rule_text
  if mode == "contains" then pyIn t c
  else if mode == "not_contains" then !(pyIn t c)
  else if mode == "equals" then c == t
  else if mode == "not_equals" then c != t
  else if mode == "starts_with" then pyStartsWith c t
  else if mode == "ends_with" then pyEndsWith c t
  else true

/-- The recognised text-filter modes (the dispatch chain of
`_match_text_filter`). -/
def knownModes : List String :=
  ["contains", "not_contains", "equals", "not_equals", "starts_with", "ends_with"]

/-- One `text_filter` entry of a `filter_data` dict: `FilterPopup.get_filter_data`
always stores both a `mode` and a (non-empty) `text` field when the key is
present at all. -/
structure TextFilter where
  mode : String
  text : String
deriving DecidableEq

/-- The persisted `all_selected` value: the popup emits a Python bool, but
values read back from `QSettings` may come back as strings (spec design note). -/
inductive AllSelected
  | pybool (b : Bool)
  | pystr (s : String)
deriving DecidableEq

/-- Lines 323-325 of enhanced_table.py: string-typed `all_selected` values are
coerced via `lower() == "true"`. -/
def AllSelected.coerce : AllSelected → Bool
  | .pybool b => b
  | .pystr s => pyLower s == "true"

/-- Python truthiness of the raw `all_selected` value, as tested on line 274
(`filter_data.get("all_selected")`). -/
def AllSelected.truthy : AllSelected → Bool
  | .pybool b => b
  | .pystr s => s != ""

/-- A `filter_data` dict in the shape produced by `FilterPopup.get_filter_data`:
`text_filter = Option.none` models absence of the `"text_filter"` key. -/
structure FilterData where
  column_key : String
  selected_values : List String
  all_selected : AllSelected
  text_filter : Option TextFilter
deriving DecidableEq

/-- One table row: `cells` is indexed by logical column index, `Option.none`
modelling a cell for which no item was ever set; `hidden` is the Qt
row-hidden flag. -/
structure TableRow where
  cells : List (Option String)
  hidden : Bool
deriving DecidableEq

/-- The filtering-relevant state of `EnhancedTableWidget`: the keys of
`self.columns`, `self.column_order`, the rows, `self._active_filters`
(an insertion-ordered dict) and the `server_side_mode` attribute. -/
structure TableState where
  columns : List String
  column_order : List String
  rows : List TableRow
  active_filters : List (String × FilterData)
  server_side_mode : Bool
deriving DecidableEq

/-- Embedding of `EnhancedTableWidget._get_table_index` (lines 133-138): first index of the
key in `column_order`, with the `-1` failure case modelled as `Option.none`. -/
def get_table_index (column_order : List String) (column_key : String) : Option Nat :=
  column_order.findIdx? (fun k => k == column_key)

/-- Cell display text: `item.text() if item else ""` with out-of-range access
also giving the missing-item default. -/
def cell_text_at (r : TableRow) (idx : Nat) : String :=
  (r.cells.getD idx Option.none).getD ""

/-- The per-row loop body of `_apply_filters` (lines 311-344), including the
early `break` on the first failing column. -/
def row_passes (columns column_order : List String) (r : TableRow) :
    List (String × FilterData) → Bool
  | [] => true
  | (col_key, fd) :: rest =>
    if !(columns.contains col_key) then row_passes columns column_order r rest
    else
      match get_table_index column_order col_key with
      | Option.none => row_passes columns column_order r rest
      | Option.some idx =>
        let cell_text := cell_text_at r idx
        if !fd.all_selected.coerce
            && !(fd.selected_values.any (fun v => v == cell_text)) then
          false
        else
          match fd.text_filter with
          | Option.some tf =>
            if match_text_filter cell_text (pyLower tf.text) tf.mode then
              row_passes columns column_order r rest
            else false
          | Option.none => row_passes columns column_order r rest

/-- Embedding of `EnhancedTableWidget._apply_filters` (lines 303-350): returns the updated
state together with the `(visible, total)` counts emitted on `rows_filtered`. -/
def apply_filters (s : TableState) : TableState × Nat × Nat :=
  if s.server_side_mode then (s, s.rows.length, s.rows.length)
  else
    let rows := s.rows.map (fun r =>
      { r with hidden := !(row_passes s.columns s.column_order r s.active_filters) })
    ({ s with rows := rows }, (rows.filter (fun r => !r.hidden)).length, s.rows.length)

/-- Embedding of `EnhancedTableWidget.clear_all_filters` (lines 415-422): empty the filter
map and un-hide every row. -/
def clear_all_filters (s : TableState) : TableState :=
  { s with active_filters := [],
           rows := s.rows.map (fun r => { r with hidden := false }) }

/-- A filter entry addresses a real column: its key is a known column and has
a logical index. -/
def valid_filter_key (columns column_order : List String)
    (p : String × FilterData) : Bool :=
  columns.contains p.1 && (get_table_index column_order p.1).isSome

/-- The same table state with every stale (invalid-key) filter entry dropped. -/
def drop_invalid_filters (s : TableState) : TableState :=
  { s with
    active_filters :=
      s.active_filters.filter (valid_filter_key s.columns s.column_order) }

/-- A concrete two-row, two-column table carrying one value-set filter, used
by witnesses. -/
def demo_table : TableState :=
  ⟨["a", "b"], ["a", "b"],
   [⟨[Option.some "A", Option.some "x"], false⟩,
    ⟨[Option.some "C", Option.none], false⟩],
   [("a", ⟨"a", ["A", "B"], AllSelected.pybool false, Option.none⟩)],
   false⟩

/-- The value-set test of one column, as the spec words it: pass when the
selected set is "all" or the cell text exactly equals one of the selected
values (case-sensitive). -/
def value_test (fd : FilterData) (cell_text : String) : Bool :=
  fd.all_selected.coerce || fd.selected_values.any (fun v => v == cell_text)

/-- The text-rule test of one column: pass when no rule is present or the rule
matches. -/
def text_test (fd : FilterData) (cell_text : String) : Bool :=
  match fd.text_filter with
  | Option.some tf => match_text_filter cell_text (pyLower tf.text) tf.mode
  | Option.none => true

/-- Combined per-column test: columns whose key is unknown or unindexable are
skipped (treated as passing); otherwise both the value-set test and the
text-rule test must pass. -/
def column_test (columns column_order : List String) (r : TableRow)
    (col_key : String) (fd : FilterData) : Bool :=
  if columns.contains col_key then
    match get_table_index column_order col_key with
    | Option.some idx => value_test fd (cell_text_at r idx) && text_test fd (cell_text_at r idx)
    | Option.none => true
  else true

/-- The text fallback branch of `NumericTableWidgetItem.__lt__`
(enhanced_table.py lines 40-50): empty display text is treated as least,
otherwise the base-class text comparison applies. -/
def text_fallback_lt (s t : String) : Bool :=
  if s == "" && t != "" then true
  else if s != "" && t == "" then false
  else qtTextLt s t

/-- A table cell item: `numeric_value = Option.some q` models a
`NumericTableWidgetItem` carrying a numeric sort key, `Option.none` a plain
`QTableWidgetItem`. -/
structure TableItem where
  text : String
  numeric_value : Option Rat
deriving DecidableEq

/-- The `<` operator used when sorting a column (enhanced_table.py lines
35-50).  A numeric item compares numeric keys against another numeric item and
falls back to display-text comparison against a plain item; a plain item uses
the base-class text comparison. -/
def item_lt (a b : TableItem) : Bool :=
  match a.numeric_value with
  | Option.some x =>
    match b.numeric_value with
    | Option.some y => decide (x < y)
    | Option.none => text_fallback_lt a.text b.text
  | Option.none => qtTextLt a.text b.text

/-- Stable insertion of one element: it lands in front of the first element it
is strictly below, hence after every element it ties with. -/
def insert_by_lt (lt : α → α → Bool) (a : α) : List α → List α
  | [] => [a]
  | b :: bs => if lt a b then a :: b :: bs else b :: insert_by_lt lt a bs

/-- Stable sort by a strict comparator, modelling the stable sort
`QTableModel::sort` performs on the items of the sorted column. -/
def stable_sort_by_lt (lt : α → α → Bool) (l : List α) : List α :=
  l.foldl (fun acc a => insert_by_lt lt a acc) []

/-- Ascending sort of a column: Qt sorts with `itemLessThan`, i.e. the item
comparator itself. -/
def sort_items_asc (l : List TableItem) : List TableItem :=
  stable_sort_by_lt item_lt l

/-- Descending sort of a column: Qt sorts with `itemGreaterThan a b`, which is
`b < a` with the same item comparator. -/
def sort_items_desc (l : List TableItem) : List TableItem :=
  stable_sort_by_lt (fun a b => item_lt b a) l

/-- The numeric sort key of an item (only used under an `isSome` hypothesis). -/
def itemKey (i : TableItem) : Rat := i.numeric_value.getD 0

/-- The pagination-relevant state of `TableFooter` (table_footer.py): the two
navigation buttons, the page label and the cached page numbers. -/
structure FooterState where
  current_page : Int
  total_pages : Int
  page_label : String
  prev_enabled : Bool
  next_enabled : Bool
deriving DecidableEq

/-- Embedding of `TableFooter.update_pagination` (table_footer.py lines 274-286). -/
def update_pagination (current total_pages : Int) : FooterState :=
  { current_page := current,
    total_pages := total_pages,
    page_label := toString current ++ " / " ++ toString total_pages,
    prev_enabled := decide (current > 1),
    next_enabled := decide (current < total_pages) }

/-- Clicking the previous-page button: a disabled Qt button emits no `clicked`
signal, so the `prev_page_clicked` emission is `Option.none` at the boundary. -/
def click_prev (s : FooterState) : Option Unit :=
  if s.prev_enabled then Option.some () else Option.none

/-- Clicking the next-page button, analogously. -/
def click_next (s : FooterState) : Option Unit :=
  if s.next_enabled then Option.some () else Option.none

/-- A Python value as it can come back from `QSettings.value`. -/
inductive PyVal
  | pynone
  | str (s : String)
  | int (n : Int)
  | bool (b : Bool)
  | dict (entries : List (String × PyVal))
  | bytes (data : List Nat)

/-- Python truthiness of a `PyVal`. -/
def PyVal.truthy : PyVal → Bool
  | .pynone => false
  | .str s => s != ""
  | .int n => n != 0
  | .bool b => b
  | .dict entries => !entries.isEmpty
  | .bytes data => !data.isEmpty

/-- Reading `QSettings.value(key)`: stored value, or `None` when the key is absent. -/
def settings_value (store : List (String × PyVal)) (k : String) : PyVal :=
  match store.find? (fun p => p.1 == k) with
  | Option.some p => p.2
  | Option.none => PyVal.pynone

/-- Python `dict.get(k, default)` on the entries of a `PyVal.dict`. -/
def dict_get (entries : List (String × PyVal)) (k : String) (d : PyVal) : PyVal :=
  match entries.find? (fun p => p.1 == k) with
  | Option.some p => p.2
  | Option.none => d

/-- The mutable per-column layout fields written by `_load_settings`: the raw
values are assigned without coercion, so they stay `PyVal`. -/
structure ColLayout where
  visible : PyVal
  width : PyVal

/-- The default layout of a declared column list: declared visibility flags and
declared widths (`ColumnConfig` defaults). -/
def default_layout (cols : List (String × Bool × Int)) : List (String × ColLayout) :=
  cols.map (fun c => (c.1, ⟨PyVal.bool c.2.1, PyVal.int c.2.2⟩))

/-- Replace the layout entry of one key. -/
def set_col (layout : List (String × ColLayout)) (k : String) (v : ColLayout) :
    List (String × ColLayout) :=
  layout.map (fun p => if p.1 == k then (p.1, v) else p)

/-- The `for key, config in col_settings.items()` loop of `_load_settings`
(lines 547-551): unknown keys are skipped, a known key reads
`config.get("visible", True)` and `config.get("width", 100)`, and a `config`
that is not a mapping raises `AttributeError` at `config.get`. -/
def apply_col_entries (layout : List (String × ColLayout)) :
    List (String × PyVal) → Except String (List (String × ColLayout))
  | [] => .ok layout
  | (key, config) :: rest =>
    if layout.any (fun p => p.1 == key) then
      match config with
      | PyVal.dict c =>
        apply_col_entries
          (set_col layout key ⟨dict_get c "visible" (PyVal.bool true),
                               dict_get c "width" (PyVal.int 100)⟩) rest
      | _ => .error "AttributeError: object has no attribute get"
    else apply_col_entries layout rest

/-- Embedding of `EnhancedTableWidget._load_settings` (lines 544-555): read the columns
value, and when it is truthy iterate `col_settings.items()` — a truthy value
that is not a mapping raises `AttributeError` there; then stash a truthy
header-state value for `_apply_column_settings`.  `Except.error` models an
uncaught Python exception. -/
def load_settings (store : List (String × PyVal)) (columns_key header_key : String)
    (layout : List (String × ColLayout)) :
    Except String (List (String × ColLayout) × Option PyVal) :=
  let col_settings := settings_value store columns_key
  let step1 : Except String (List (String × ColLayout)) :=
    if col_settings.truthy then
      match col_settings with
      | PyVal.dict entries => apply_col_entries layout entries
      | _ => .error "AttributeError: object has no attribute items"
    else .ok layout
  match step1 with
  | .error e => .error e
  | .ok layout2 =>
    let header_state := settings_value store header_key
    .ok (layout2, if header_state.truthy then Option.some header_state else Option.none)

/-- The filter bookkeeping of one table: `active` is `self._active_filters`
(an insertion-ordered dict) and `saved` the filters entry of the settings
store, written by `_save_filter_settings`. -/
structure FilterSys where
  active : List (String × FilterData)
  saved : Option (List (String × FilterData))

/-- Python dict assignment `self._active_filters[key] = fd`: update in place
when the key exists, append otherwise. -/
def dict_set (m : List (String × FilterData)) (k : String) (v : FilterData) :
    List (String × FilterData) :=
  if m.any (fun p => p.1 == k) then m.map (fun p => if p.1 == k then (k, v) else p)
  else m ++ [(k, v)]

/-- Deletion `del self._active_filters[key]` guarded by a membership test
(`_on_filter_cleared`, lines 291-292). -/
def dict_del (m : List (String × FilterData)) (k : String) :
    List (String × FilterData) :=
  m.filter (fun p => p.1 != k)

/-- Embedding of `EnhancedTableWidget._on_filter_cleared` (lines 289-301): drop the entry
and persist the map. -/
def on_filter_cleared (s : FilterSys) (key : String) : FilterSys :=
  let active := dict_del s.active key
  { active := active, saved := Option.some active }

/-- Embedding of `EnhancedTableWidget._on_filter_applied` (lines 268-287): a falsy column
key returns early; a truthy `all_selected` with no `text_filter` key clears
the column instead of storing; otherwise the spec is stored and persisted. -/
def on_filter_applied (s : FilterSys) (fd : FilterData) : FilterSys :=
  if fd.column_key == "" then s
  else if fd.all_selected.truthy && fd.text_filter.isNone then
    on_filter_cleared s fd.column_key
  else
    let active := dict_set s.active fd.column_key fd
    { active := active, saved := Option.some active }

/-- The filter-map part of `clear_all_filters` (lines 415-422). -/
def clear_all_filters_sys (_s : FilterSys) : FilterSys :=
  { active := [], saved := Option.some [] }

/-- Embedding of `EnhancedTableWidget._load_filter_settings` (lines 561-569): a truthy
saved value replaces the active map, a falsy one (absent, or an empty dict)
leaves it alone. -/
def load_filter_settings (s : FilterSys) : FilterSys :=
  match s.saved with
  | Option.some m => if m.isEmpty then s else { s with active := m }
  | Option.none => s

/-- The filter operations of the table. -/
inductive FilterOp
  | applyF (fd : FilterData)
  | clearF (key : String)
  | clearAll
  | load

/-- One operation step. -/
def filter_step (s : FilterSys) : FilterOp → FilterSys
  | .applyF fd => on_filter_applied s fd
  | .clearF k => on_filter_cleared s k
  | .clearAll => clear_all_filters_sys s
  | .load => load_filter_settings s

/-- Run a sequence of filter operations. -/
def run_ops (s : FilterSys) : List FilterOp → FilterSys
  | [] => s
  | op :: rest => run_ops (filter_step s op) rest

/-- A fresh table against a store that holds no filters entry yet. -/
def init_sys : FilterSys := ⟨[], Option.none⟩

/-- A stored spec restricts something: its value set is not "all", or it
carries a text rule. -/
def restrictive (fd : FilterData) : Bool :=
  !fd.all_selected.coerce || fd.text_filter.isSome

/-- Invariant of the filter bookkeeping: every stored entry (live or persisted)
is restrictive and keyed by a non-empty column key. -/
def sys_inv (s : FilterSys) : Prop :=
  (∀ p ∈ s.active, restrictive p.2 = true ∧ p.1 ≠ "") ∧
  (∀ m, s.saved = Option.some m → ∀ p ∈ m, restrictive p.2 = true ∧ p.1 ≠ "")

theorem truthy_of_coerce {a : AllSelected} (h : a.coerce = true) : a.truthy = true := by
  cases a with
  | pybool b => simpa [AllSelected.coerce, AllSelected.truthy] using h
  | pystr s =>
    simp only [AllSelected.coerce, beq_iff_eq] at h
    simp only [AllSelected.truthy, bne_iff_ne, ne_eq]
    rintro rfl
    exact absurd h (by decide)

theorem coerce_false_of_truthy_false {a : AllSelected} (h : a.truthy = false) :
    a.coerce = false := by
  by_contra hc
  rw [truthy_of_coerce (Bool.of_not_eq_false hc)] at h
  exact absurd h (by simp)




theorem mem_dict_set {m : List (String × FilterData)} {k : String} {v : FilterData}
    {p : String × FilterData} (hp : p ∈ dict_set m k v) : p = (k, v) ∨ p ∈ m := by
  unfold dict_set at hp
  split at hp
  · rcases List.mem_map.mp hp with ⟨q, hq, hqe⟩
    by_cases hqk : (q.1 == k) = true
    · rw [if_pos hqk] at hqe
      exact Or.inl hqe.symm
    · rw [if_neg hqk] at hqe
      exact Or.inr (hqe ▸ hq)
  · rcases List.mem_append.mp hp with h | h
    · exact Or.inr h
    · simp only [List.mem_singleton] at h
      exact Or.inl h

theorem sys_inv_clear {s : FilterSys} (h : sys_inv s) (key : String) :
    sys_inv (on_filter_cleared s key) := by
  have hsub : ∀ p ∈ dict_del s.active key, restrictive p.2 = true ∧ p.1 ≠ "" :=
    fun p hp => h.1 p (List.mem_filter.mp hp).1
  exact ⟨hsub, fun m hm => by
    simp only [on_filter_cleared, Option.some.injEq] at hm
    exact hm ▸ hsub⟩

theorem sys_inv_step {s : FilterSys} (h : sys_inv s) (op : FilterOp) :
    sys_inv (filter_step s op) := by
  cases op with
  | applyF fd =>
    simp only [filter_step, on_filter_applied]
    by_cases hk : (fd.column_key == "") = true
    · rw [if_pos hk]; exact h
    · rw [if_neg hk]
      by_cases hg : (fd.all_selected.truthy && fd.text_filter.isNone) = true
      · rw [if_pos hg]; exact sys_inv_clear h fd.column_key
      · rw [if_neg hg]
        have hfd : restrictive fd = true := by
          cases ht : fd.text_filter with
          | some tf => simp [restrictive, ht]
          | none =>
            have htr : fd.all_selected.truthy = false := by
              by_contra htr
              exact hg (by simp [ht, Bool.of_not_eq_false htr])
            simp [restrictive, coerce_false_of_truthy_false htr]
        have hkey : fd.column_key ≠ "" := by simpa using hk
        have hmem : ∀ p ∈ dict_set s.active fd.column_key fd,
            restrictive p.2 = true ∧ p.1 ≠ "" := by
          intro p hp
          rcases mem_dict_set hp with rfl | hmem
          · exact ⟨hfd, hkey⟩
          · exact h.1 p hmem
        exact ⟨hmem, fun m hm => by
          simp only [Option.some.injEq] at hm
          exact hm ▸ hmem⟩
  | clearF k => exact sys_inv_clear h k
  | clearAll =>
    exact ⟨by simp [filter_step, clear_all_filters_sys], fun m hm => by
      simp only [filter_step, clear_all_filters_sys, Option.some.injEq] at hm
      simp [← hm]⟩
  | load =>
    cases hs : s.saved with
    | none => simpa [filter_step, load_filter_settings, hs] using h
    | some m =>
      simp only [filter_step, load_filter_settings, hs]
      split
      · exact h
      · refine ⟨h.2 m hs, fun m2 hm2 => ?_⟩
        have hm : m = m2 := by simpa using hm2
        exact h.2 m2 (hm ▸ hs)

theorem sys_inv_run (ops : List FilterOp) :
    ∀ s : FilterSys, sys_inv s → sys_inv (run_ops s ops) := by
  induction ops with
  | nil => intro s h; exact h
  | cons op rest ih => intro s h; exact ih _ (sys_inv_step h op)

/-- Claim C6: starting from a fresh table, over every sequence of filter
apply/clear/clear-all/load operations, every entry of the active-filter map
restricts either the value set or the text; and applying a spec whose
`all_selected` flag is set (truthy) with no text rule never stores it — after
the apply, no entry for that column remains. -/
theorem c6_noop_spec_never_stored (ops : List FilterOp) :
    (∀ p ∈ (run_ops init_sys ops).active, restrictive p.2 = true) ∧
    (∀ fd : FilterData, fd.all_selected.truthy = true →
      fd.text_filter = Option.none →
      ∀ p ∈ (on_filter_applied (run_ops init_sys ops) fd).active,
        p.1 ≠ fd.column_key) := by
  have hinv : sys_inv (run_ops init_sys ops) :=
    sys_inv_run ops init_sys ⟨by simp [init_sys], by simp [init_sys]⟩
  refine ⟨fun p hp => (hinv.1 p hp).1, ?_⟩
  intro fd htr htf p hp
  unfold on_filter_applied at hp
  by_cases hk : (fd.column_key == "") = true
  · rw [if_pos hk] at hp
    have hne := (hinv.1 p hp).2
    have hke : fd.column_key = "" := by simpa using hk
    rw [hke]
    exact hne
  · rw [if_neg hk] at hp
    have hguard : (fd.all_selected.truthy && fd.text_filter.isNone) = true := by
      simp [htr, htf]
    rw [if_pos hguard] at hp
    simp only [on_filter_cleared, dict_del] at hp
    have := (List.mem_filter.mp hp).2
    simpa using this

/-- Witness for C6 at a concrete operation sequence and a concrete no-op
spec. -/
theorem c6_noop_spec_never_stored_witness :
    (∀ p ∈ (run_ops init_sys
        [FilterOp.applyF ⟨"name", ["A"], AllSelected.pybool false, Option.none⟩]).active,
      restrictive p.2 = true) ∧
    ((AllSelected.pybool true).truthy = true ∧
      ∀ p ∈ (on_filter_applied
          (run_ops init_sys
            [FilterOp.applyF ⟨"name", ["A"], AllSelected.pybool false, Option.none⟩])
          ⟨"name", [], AllSelected.pybool true, Option.none⟩).active,
        p.1 ≠ "name") :=
  ⟨(c6_noop_spec_never_stored _).1,
   by decide,
   (c6_noop_spec_never_stored
      [FilterOp.applyF ⟨"name", ["A"], AllSelected.pybool false, Option.none⟩]).2
     ⟨"name", [], AllSelected.pybool true, Option.none⟩ (by decide) rfl⟩

/-- Claim C3: in server-side (delegated) filtering mode, `_apply_filters`
performs no local evaluation — the state (in particular every hidden flag of
every row) is returned unchanged — and the emitted visible and total counts
both equal the number of currently loaded rows. -/
theorem c3_server_side_skip (s : TableState) (h : s.server_side_mode = true) :
    apply_filters s = (s, s.rows.length, s.rows.length) := by
  simp [apply_filters, h]

/-- Witness for C3 at a concrete one-row state with a stored filter. -/
theorem c3_server_side_skip_witness :
    (TableState.server_side_mode
        ⟨["a"], ["a"],
         [⟨[Option.some "x"], true⟩],
         [("a", ⟨"a", ["y"], AllSelected.pybool false, Option.none⟩)], true⟩ = true) ∧
    apply_filters
        ⟨["a"], ["a"],
         [⟨[Option.some "x"], true⟩],
         [("a", ⟨"a", ["y"], AllSelected.pybool false, Option.none⟩)], true⟩
      = (⟨["a"], ["a"],
          [⟨[Option.some "x"], true⟩],
          [("a", ⟨"a", ["y"], AllSelected.pybool false, Option.none⟩)], true⟩, 1, 1) :=
  ⟨rfl, c3_server_side_skip _ rfl⟩

/-- Claim C7: clearing all filters empties the active-filter map and makes
every row visible, whatever was active before. -/
theorem c7_clear_all_filters (s : TableState) :
    (clear_all_filters s).active_filters = [] ∧
    ∀ r ∈ (clear_all_filters s).rows, r.hidden = false := by
  refine ⟨rfl, ?_⟩
  intro r hr
  simp only [clear_all_filters, List.mem_map] at hr
  obtain ⟨a, _, rfl⟩ := hr
  rfl

/-- Witness for C7 at a concrete state with an active filter and hidden rows. -/
theorem c7_clear_all_filters_witness :
    (clear_all_filters
        ⟨["a"], ["a"], [⟨[Option.some "x"], true⟩, ⟨[Option.none], true⟩],
         [("a", ⟨"a", ["y"], AllSelected.pybool false, Option.none⟩)],
         false⟩).active_filters = [] ∧
    ∀ r ∈ (clear_all_filters
        ⟨["a"], ["a"], [⟨[Option.some "x"], true⟩, ⟨[Option.none], true⟩],
         [("a", ⟨"a", ["y"], AllSelected.pybool false, Option.none⟩)],
         false⟩).rows, r.hidden = false :=
  c7_clear_all_filters _

/-- Claim C9: after `update_pagination current total`, the previous-page
button is enabled iff `current > 1` and the next-page button is enabled iff
`current < total`; clicking a disabled button emits nothing, so navigation is
a no-op at both boundaries. -/
theorem c9_pagination_boundaries (current total : Int) :
    ((update_pagination current total).prev_enabled = true ↔ 1 < current) ∧
    ((update_pagination current total).next_enabled = true ↔ current < total) ∧
    (click_prev (update_pagination current total) = Option.none ↔ current ≤ 1) ∧
    (click_next (update_pagination current total) = Option.none ↔ total ≤ current) := by
  refine ⟨by simp [update_pagination], by simp [update_pagination], ?_, ?_⟩
  · simp only [click_prev, update_pagination]
    constructor
    · intro h
      by_contra hc
      rw [if_pos (by simpa using (by omega : (1:Int) < current))] at h
      exact Option.noConfusion h
    · intro h
      rw [if_neg (by simpa using (by omega : ¬ (1:Int) < current))]
  · simp only [click_next, update_pagination]
    constructor
    · intro h
      by_contra hc
      rw [if_pos (by simpa using (by omega : current < total))] at h
      exact Option.noConfusion h
    · intro h
      rw [if_neg (by simpa using (by omega : ¬ current < total))]

/-- Witness for C9 at page 1 of 3: previous disabled and inert, next enabled. -/
theorem c9_pagination_boundaries_witness :
    ((update_pagination 1 3).prev_enabled = true ↔ (1:Int) < 1) ∧
    ((update_pagination 1 3).next_enabled = true ↔ (1:Int) < 3) ∧
    (click_prev (update_pagination 1 3) = Option.none ↔ (1:Int) ≤ 1) ∧
    (click_next (update_pagination 1 3) = Option.none ↔ (3:Int) ≤ 1) :=
  c9_pagination_boundaries 1 3

/-- Claim C5: the text-rule test of `_apply_filters` (which lower-cases the
rule text at the call site and hands it to `_match_text_filter`, which
lower-cases the cell text) refines the spec-worded rule — lower-case both
sides, then dispatch contains/not-contains/equals/not-equals/starts-with/
ends-with — and every mode outside the recognised set makes the test pass. -/
theorem c5_text_rule_dispatch :
    (∀ cell_text rule_text mode : String,
      match_text_filter cell_text (pyLower rule_text) mode
        = textRuleSpec cell_text rule_text mode) ∧
    (∀ cell_text text mode : String, mode ∉ knownModes →
      match_text_filter cell_text text mode = true) := by
  constructor
  · intro cell_text rule_text mode
    rfl
  · intro cell_text text mode h
    simp only [knownModes, List.mem_cons, List.not_mem_nil, or_false, not_or] at h
    obtain ⟨h1, h2, h3, h4, h5, h6⟩ := h
    simp [match_text_filter, h1, h2, h3, h4, h5, h6]

/-- Witness for C5 at concrete strings and a concrete unknown mode. -/
theorem c5_text_rule_dispatch_witness :
    (match_text_filter "In Stock" (pyLower "ST") "contains"
      = textRuleSpec "In Stock" "ST" "contains") ∧
    ("regex" ∉ knownModes ∧ match_text_filter "abc" "zzz" "regex" = true) :=
  ⟨c5_text_rule_dispatch.1 "In Stock" "ST" "contains",
   by decide,
   c5_text_rule_dispatch.2 "abc" "zzz" "regex" (by decide)⟩

theorem row_passes_cons (cols order : List String) (r : TableRow) (k : String)
    (fd : FilterData) (rest : List (String × FilterData)) :
    row_passes cols order r ((k, fd) :: rest)
      = (column_test cols order r k fd && row_passes cols order r rest) := by
  cases hk : cols.contains k with
  | false =>
    have h1 : row_passes cols order r ((k, fd) :: rest)
        = row_passes cols order r rest := by
      simp only [row_passes, hk, Bool.not_false, if_true]
    have h2 : column_test cols order r k fd = true := by
      simp only [column_test, hk, Bool.false_eq_true, if_false]
    rw [h1, h2, Bool.true_and]
  | true =>
    cases hidx : get_table_index order k with
    | none =>
      have h1 : row_passes cols order r ((k, fd) :: rest)
          = row_passes cols order r rest := by
        simp only [row_passes, hk, Bool.not_true, Bool.false_eq_true, if_false, hidx]
      have h2 : column_test cols order r k fd = true := by
        simp only [column_test, hk, if_true, hidx]
      rw [h1, h2, Bool.true_and]
    | some idx =>
      have h2 : column_test cols order r k fd
          = (value_test fd (cell_text_at r idx) && text_test fd (cell_text_at r idx)) := by
        simp only [column_test, hk, if_true, hidx]
      have h1 : row_passes cols order r ((k, fd) :: rest)
          = (if !(value_test fd (cell_text_at r idx)) then false
             else match fd.text_filter with
               | Option.some tf =>
                 if match_text_filter (cell_text_at r idx) (pyLower tf.text) tf.mode then
                   row_passes cols order r rest
                 else false
               | Option.none => row_passes cols order r rest) := by
        simp only [row_passes, hk, Bool.not_true, Bool.false_eq_true, if_false, hidx,
          value_test, Bool.not_or]
      rw [h1, h2]
      cases hv : value_test fd (cell_text_at r idx) with
      | false => simp
      | true =>
        simp only [Bool.not_true, Bool.false_eq_true, if_false, Bool.true_and]
        cases htf : fd.text_filter with
        | none => simp only [text_test, htf, Bool.true_and]
        | some tf =>
          simp only [text_test, htf]
          cases hm : match_text_filter (cell_text_at r idx) (pyLower tf.text) tf.mode with
          | false => simp
          | true => simp

theorem row_passes_eq_all (cols order : List String) (r : TableRow)
    (l : List (String × FilterData)) :
    row_passes cols order r l
      = l.all (fun p => column_test cols order r p.1 p.2) := by
  induction l with
  | nil => rfl
  | cons p rest ih =>
    obtain ⟨k, fd⟩ := p
    rw [row_passes_cons, List.all_cons, ih]

/-- Claim C4: with local filtering, the hidden flag written by
`_apply_filters` is exactly the negation of the conjunction, over every
active-filter entry, of the value-set test (pass when the set is "all" or the
cell display text — empty for a missing item — exactly equals one of the
selected values, case-sensitively) and the text-rule test; so a row is visible
iff it passes both tests of every active column. -/
theorem c4_visibility_conjunction (s : TableState) (h : s.server_side_mode = false) :
    (apply_filters s).1.rows = s.rows.map (fun r =>
      { r with hidden := !(s.active_filters.all
          (fun p => column_test s.columns s.column_order r p.1 p.2)) }) := by
  simp only [apply_filters, h, Bool.false_eq_true, if_false]
  simp only [row_passes_eq_all]

/-- Witness for C4 at a concrete two-row table with one value-set filter. -/
theorem c4_visibility_conjunction_witness :
    (demo_table.server_side_mode = false) ∧
    (apply_filters demo_table).1.rows
      = demo_table.rows.map (fun r =>
          { r with
            hidden := !(demo_table.active_filters.all (fun p =>
              column_test demo_table.columns demo_table.column_order r p.1 p.2)) }) :=
  ⟨rfl, c4_visibility_conjunction demo_table rfl⟩

theorem row_passes_filter_invalid (cols order : List String) (r : TableRow)
    (l : List (String × FilterData)) :
    row_passes cols order r (l.filter (valid_filter_key cols order))
      = row_passes cols order r l := by
  induction l with
  | nil => rfl
  | cons p rest ih =>
    obtain ⟨k, fd⟩ := p
    rw [List.filter_cons]
    cases hk : valid_filter_key cols order (k, fd) with
    | true =>
      simp only [if_true]
      rw [row_passes_cons, row_passes_cons, ih]
    | false =>
      simp only [Bool.false_eq_true, if_false]
      rw [row_passes_cons, ih]
      have hct : column_test cols order r k fd = true := by
        simp only [valid_filter_key, Bool.and_eq_false_iff] at hk
        cases hk with
        | inl hc =>
          simp only [column_test, hc, Bool.false_eq_true, if_false]
        | inr hio =>
          cases hgi : get_table_index order k with
          | some idx =>
            rw [hgi] at hio
            simp at hio
          | none =>
            cases hc : cols.contains k with
            | false => simp only [column_test, hc, Bool.false_eq_true, if_false]
            | true => simp only [column_test, hc, if_true, hgi]
      rw [hct, Bool.true_and]

/-- Claim C10: an active-filter entry whose column key is unknown (or has no
logical index) is skipped entirely by `_apply_filters`: dropping all such
stale entries changes neither the resulting rows (so no row is ever hidden by
a stale entry) nor the emitted counts, and the evaluation is total (no
exception path). -/
theorem c10_stale_filters_skipped (s : TableState) :
    (apply_filters (drop_invalid_filters s)).1.rows = (apply_filters s).1.rows ∧
    (apply_filters (drop_invalid_filters s)).2 = (apply_filters s).2 := by
  cases hm : s.server_side_mode with
  | true => constructor <;> simp [apply_filters, drop_invalid_filters, hm]
  | false =>
    constructor <;>
      simp [apply_filters, drop_invalid_filters, hm, row_passes_filter_invalid]

theorem mem_insert_by_lt {α : Type} (lt : α → α → Bool) (a : α) (l : List α) (x : α) :
    x ∈ insert_by_lt lt a l ↔ x = a ∨ x ∈ l := by
  induction l with
  | nil => simp [insert_by_lt]
  | cons b bs ih =>
    simp only [insert_by_lt]
    split
    · simp only [List.mem_cons]
    · simp only [List.mem_cons, ih]
      tauto

theorem pairwise_insert_by_lt {α : Type} (f : α → Rat) (lt : α → α → Bool) (a : α) :
    ∀ l : List α,
      (∀ x ∈ l, lt a x = decide (f a < f x) ∧ lt x a = decide (f x < f a)) →
      l.Pairwise (fun x y => f x ≤ f y) →
      (insert_by_lt lt a l).Pairwise (fun x y => f x ≤ f y) := by
  intro l
  induction l with
  | nil =>
    intro _ _
    simp [insert_by_lt]
  | cons b bs ih =>
    intro hcomp hp
    rw [List.pairwise_cons] at hp
    obtain ⟨hb, hbs⟩ := hp
    have hab := hcomp b (List.mem_cons_self b bs)
    simp only [insert_by_lt]
    split
    next hlt =>
      rw [hab.1, decide_eq_true_eq] at hlt
      rw [List.pairwise_cons]
      refine ⟨?_, List.pairwise_cons.mpr ⟨hb, hbs⟩⟩
      intro y hy
      rcases List.mem_cons.mp hy with rfl | hy2
      · exact le_of_lt hlt
      · exact le_trans (le_of_lt hlt) (hb y hy2)
    next hlt =>
      rw [hab.1] at hlt
      simp only [decide_eq_true_eq] at hlt
      have hba : f b ≤ f a := le_of_not_lt hlt
      rw [List.pairwise_cons]
      refine ⟨?_, ih (fun x hx => hcomp x (List.mem_cons_of_mem b hx)) hbs⟩
      intro y hy
      rcases (mem_insert_by_lt lt a bs y).mp hy with rfl | hy2
      · exact hba
      · exact hb y hy2

theorem pairwise_foldl_insert {α : Type} (f : α → Rat) (lt : α → α → Bool) :
    ∀ (l acc : List α),
      (∀ x, (x ∈ l ∨ x ∈ acc) → ∀ y, (y ∈ l ∨ y ∈ acc) →
        lt x y = decide (f x < f y)) →
      acc.Pairwise (fun x y => f x ≤ f y) →
      (l.foldl (fun acc2 a => insert_by_lt lt a acc2) acc).Pairwise
        (fun x y => f x ≤ f y) := by
  intro l
  induction l with
  | nil =>
    intro acc _ hacc
    simpa using hacc
  | cons a as ih =>
    intro acc hcomp hacc
    simp only [List.foldl_cons]
    apply ih
    · intro x hx y hy
      apply hcomp
      · rcases hx with hx | hx
        · exact Or.inl (List.mem_cons_of_mem a hx)
        · rcases (mem_insert_by_lt lt a acc x).mp hx with h1 | h2
          · exact Or.inl (by rw [h1]; exact List.mem_cons_self a as)
          · exact Or.inr h2
      · rcases hy with hy | hy
        · exact Or.inl (List.mem_cons_of_mem a hy)
        · rcases (mem_insert_by_lt lt a acc y).mp hy with h1 | h2
          · exact Or.inl (by rw [h1]; exact List.mem_cons_self a as)
          · exact Or.inr h2
    · apply pairwise_insert_by_lt f lt a acc ?_ hacc
      intro x hx
      exact ⟨hcomp a (Or.inl (List.mem_cons_self a as)) x (Or.inr hx),
             hcomp x (Or.inr hx) a (Or.inl (List.mem_cons_self a as))⟩

theorem sorted_stable_sort {α : Type} (f : α → Rat) (lt : α → α → Bool) (l : List α)
    (h : ∀ x ∈ l, ∀ y ∈ l, lt x y = decide (f x < f y)) :
    (stable_sort_by_lt lt l).Pairwise (fun x y => f x ≤ f y) := by
  apply pairwise_foldl_insert f lt l []
  · intro x hx y hy
    rcases hx with hx | hx
    · rcases hy with hy | hy
      · exact h x hx y hy
      · simp at hy
    · simp at hx
  · simp

/-- Claim C8: sorting a column whose items all carry numeric sort keys orders
them by those keys — ascending for the ascending direction, descending for
the descending one — and any comparison between a numeric item and a
non-numeric item is decided purely by the display strings (the text fallback
with no exception path), in both comparison directions. -/
theorem c8_numeric_sort (l : List TableItem)
    (h : ∀ i ∈ l, i.numeric_value.isSome = true) :
    ((sort_items_asc l).Pairwise (fun a b => itemKey a ≤ itemKey b) ∧
     (sort_items_desc l).Pairwise (fun a b => itemKey b ≤ itemKey a)) ∧
    (∀ a b : TableItem, a.numeric_value.isSome = true →
      b.numeric_value = Option.none →
      item_lt a b = text_fallback_lt a.text b.text ∧
      item_lt b a = qtTextLt b.text a.text) := by
  refine ⟨⟨?_, ?_⟩, ?_⟩
  · unfold sort_items_asc
    apply sorted_stable_sort itemKey item_lt l
    intro x hx y hy
    obtain ⟨qx, hqx⟩ := Option.isSome_iff_exists.mp (h x hx)
    obtain ⟨qy, hqy⟩ := Option.isSome_iff_exists.mp (h y hy)
    simp [item_lt, itemKey, hqx, hqy]
  · unfold sort_items_desc
    have hd := sorted_stable_sort (fun a => -(itemKey a)) (fun a b => item_lt b a) l ?_
    · exact hd.imp (fun hxy => by simpa using hxy)
    · intro x hx y hy
      obtain ⟨qx, hqx⟩ := Option.isSome_iff_exists.mp (h x hx)
      obtain ⟨qy, hqy⟩ := Option.isSome_iff_exists.mp (h y hy)
      simp only [item_lt, itemKey, hqx, hqy, Option.getD_some]
      exact decide_eq_decide.mpr (Iff.symm neg_lt_neg_iff)
  · intro a b ha hb
    obtain ⟨qa, hqa⟩ := Option.isSome_iff_exists.mp ha
    constructor
    · simp [item_lt, hqa, hb]
    · simp [item_lt, hqa, hb]

/-- Witness for C8 at a concrete out-of-order numeric column. -/
theorem c8_numeric_sort_witness :
    (∀ i ∈ [(⟨"2", Option.some 2⟩ : TableItem), ⟨"1", Option.some 1⟩],
      i.numeric_value.isSome = true) ∧
    (((sort_items_asc [(⟨"2", Option.some 2⟩ : TableItem), ⟨"1", Option.some 1⟩]).Pairwise
        (fun a b => itemKey a ≤ itemKey b) ∧
      (sort_items_desc [(⟨"2", Option.some 2⟩ : TableItem), ⟨"1", Option.some 1⟩]).Pairwise
        (fun a b => itemKey b ≤ itemKey a)) ∧
     (∀ a b : TableItem, a.numeric_value.isSome = true →
       b.numeric_value = Option.none →
       item_lt a b = text_fallback_lt a.text b.text ∧
       item_lt b a = qtTextLt b.text a.text)) :=
  ⟨by decide, c8_numeric_sort _ (by decide)⟩

/-- Counterexample to C2 as stated: in a descending sort, the empty-text item
is placed after the non-empty one, not before it. -/
theorem c2_counterexample :
    sort_items_desc [⟨"", Option.some 1⟩, ⟨"Alice", Option.none⟩]
      = [⟨"Alice", Option.none⟩, ⟨"", Option.some 1⟩] ∧
    sort_items_desc [⟨"", Option.some 1⟩, ⟨"Alice", Option.none⟩]
      ≠ [⟨"", Option.some 1⟩, ⟨"Alice", Option.none⟩] := by
  constructor
  · rfl
  · decide

/-- Claim C2 (amended): in the text-fallback comparison the comparator orders
an empty display text strictly below any non-empty one, in both comparison
directions, before any direction flip — so an ascending sort places the empty
value first, while a descending sort (which swaps the comparator arguments)
places it last. -/
theorem c2_amended_empty_least (t : String) (q : Rat) (h : t ≠ "") :
    item_lt ⟨"", Option.some q⟩ ⟨t, Option.none⟩ = true ∧
    item_lt ⟨t, Option.some q⟩ ⟨"", Option.none⟩ = false ∧
    sort_items_asc [⟨t, Option.none⟩, ⟨"", Option.some q⟩]
      = [⟨"", Option.some q⟩, ⟨t, Option.none⟩] ∧
    sort_items_desc [⟨"", Option.some q⟩, ⟨t, Option.none⟩]
      = [⟨t, Option.none⟩, ⟨"", Option.some q⟩] := by
  have ht : (t == "") = false := beq_eq_false_iff_ne.mpr h
  have h1 : item_lt ⟨"", Option.some q⟩ ⟨t, Option.none⟩ = true := by
    simp only [item_lt, text_fallback_lt]
    simp [ht]
    exact Or.inl h
  have h2 : item_lt ⟨t, Option.some q⟩ ⟨"", Option.none⟩ = false := by
    simp only [item_lt, text_fallback_lt]
    simp [ht]
    intro h3
    exact absurd h3 h
  refine ⟨h1, h2, ?_, ?_⟩
  · simp [sort_items_asc, stable_sort_by_lt, insert_by_lt, h1]
  · simp [sort_items_desc, stable_sort_by_lt, insert_by_lt, h1]

/-- Witness for the amended C2 at a concrete pair of cell values. -/
theorem c2_amended_empty_least_witness :
    ("Alice" ≠ "") ∧
    (item_lt ⟨"", Option.some 1⟩ ⟨"Alice", Option.none⟩ = true ∧
     item_lt ⟨"Alice", Option.some 1⟩ ⟨"", Option.none⟩ = false ∧
     sort_items_asc [⟨"Alice", Option.none⟩, ⟨"", Option.some 1⟩]
       = [⟨"", Option.some 1⟩, ⟨"Alice", Option.none⟩] ∧
     sort_items_desc [⟨"", Option.some 1⟩, ⟨"Alice", Option.none⟩]
       = [⟨"Alice", Option.none⟩, ⟨"", Option.some 1⟩]) :=
  ⟨by decide, c2_amended_empty_least "Alice" 1 (by decide)⟩

/-- Claim C1 (the code contradicts it): a falsy stored value under the columns
key does fall back to the declared default layout, but a truthy stored value
that is not a mapping — here the string "garbage" — makes
`_load_settings` raise `AttributeError` at `col_settings.items()` instead of
returning the defaults, because unlike the header-state path this parse is
not guarded by a try/except. -/
theorem c1_corrupt_columns_raises :
    load_settings [("table_demo_0_columns", PyVal.str "garbage")]
        "table_demo_0_columns" "table_demo_0_header_state"
        (default_layout [("name", true, 100), ("price", true, 80)])
      = Except.error "AttributeError: object has no attribute items" ∧
    load_settings [] "table_demo_0_columns" "table_demo_0_header_state"
        (default_layout [("name", true, 100), ("price", true, 80)])
      = Except.ok (default_layout [("name", true, 100), ("price", true, 80)],
          Option.none) := by
  constructor
  · rfl
  · rfl
